import Mathlib

/-!
Verification of the Heston Monte-Carlo pricing core of the
Crypto-Options-Pricing-Greeks-Explainer repository (src/src/simulation.py).

The embedding models IEEE doubles as real numbers.  The global numpy random
generator is modelled explicitly: `heston_model_sim` receives the two blocks of
standard-normal draws (`Z1` and `Zraw`, one draw per (path, step) pair) that the
source obtains from `np.random.normal`, and `heston_run` threads a single global
draw stream `g` together with a cursor `k` recording how many draws have been
consumed, which is exactly the mutable state of the unseeded global generator.
-/

/-- Default value of the `num_paths` argument of `heston_model_sim`
(source: `num_paths=10000` in the signature). -/
def default_num_paths : ℕ := 10000

/-- Default value of the `num_steps` argument of `heston_model_sim`
(source: `num_steps=100` in the signature). -/
def default_num_steps : ℕ := 100

/-- Path count used by `calculate_greeks` for every supporting simulation
(source: `N = 20000`). -/
def greeks_num_paths : ℕ := 20000

/-- One Euler-Maruyama step of the Heston discretization, for a single path.
Translated from the body of the `for t in range(num_steps)` loop of
`heston_model_sim`: the variance read is floored (`vt = np.maximum(v[:, t], 0)`),
the stored updated variance is not floored. -/
noncomputable def hestonStep (kappa theta sigma r dt : ℝ) (sv : ℝ × ℝ)
    (z1 z2 : ℝ) : ℝ × ℝ :=
  let vt := max sv.2 0
  let sqrt_vt := Real.sqrt vt
  (sv.1 * Real.exp ((r - 0.5 * vt) * dt + sqrt_vt * Real.sqrt dt * z1),
   sv.2 + kappa * (theta - vt) * dt + sigma * sqrt_vt * Real.sqrt dt * z2)

/-- The (price, variance) state of one path after `n` steps, starting from
`(S0, v0)`, with per-step draws `z1 t` and `z2 t`.  This is row `p` of the
matrices `S` and `v` of `heston_model_sim`. -/
noncomputable def hestonPath (S0 v0 kappa theta sigma r dt : ℝ)
    (z1 z2 : ℕ → ℝ) : ℕ → ℝ × ℝ
  | 0 => (S0, v0)
  | n + 1 =>
      hestonStep kappa theta sigma r dt
        (hestonPath S0 v0 kappa theta sigma r dt z1 z2 n) (z1 n) (z2 n)

/-- Translation of `heston_model_sim` from src/src/simulation.py.  `Z1` and
`Zraw` are the two blocks of standard-normal draws produced by the two
`np.random.normal(size=(num_paths, num_steps))` calls; the correlated draw is
`Z2 = rho * Z1 + sqrt(1 - rho**2) * Zraw`.  The result is
`exp(-r*T) * mean(payoff)` over the terminal prices. -/
noncomputable def heston_model_sim (Z1 Zraw : ℕ → ℕ → ℝ)
    (S0 v0 rho kappa theta sigma T r strike : ℝ) (option_type : String)
    (num_paths num_steps : ℕ) : ℝ :=
  let dt := T / (num_steps : ℝ)
  let Z2 : ℕ → ℕ → ℝ := fun p t =>
    rho * Z1 p t + Real.sqrt (1 - rho ^ 2) * Zraw p t
  let ST : ℕ → ℝ := fun p =>
    (hestonPath S0 v0 kappa theta sigma r dt (Z1 p) (Z2 p) num_steps).1
  let payoff : ℕ → ℝ := fun p =>
    if option_type = "call" then max (ST p - strike) 0
    else max (strike - ST p) 0
  Real.exp (-r * T) * (Finset.sum (Finset.range num_paths) payoff / (num_paths : ℝ))

/-- A call of `heston_model_sim` against the global generator modelled as a
stream `g` with cursor `k`: the first `np.random.normal(size=(num_paths,
num_steps))` call consumes the draws `g k, ..., g (k + num_paths*num_steps - 1)`
in row-major order, the second the next block of the same size.  Returns the
price together with the advanced cursor (the generator state after the call). -/
noncomputable def heston_run (g : ℕ → ℝ) (k : ℕ)
    (S0 v0 rho kappa theta sigma T r strike : ℝ) (option_type : String)
    (num_paths num_steps : ℕ) : ℝ × ℕ :=
  (heston_model_sim
      (fun p t => g (k + (p * num_steps + t)))
      (fun p t => g (k + num_paths * num_steps + (p * num_steps + t)))
      S0 v0 rho kappa theta sigma T r strike option_type num_paths num_steps,
   k + 2 * (num_paths * num_steps))

/-- The result dictionary of `calculate_greeks`: keys price, delta, gamma,
theta. -/
structure GreeksResult where
  price : ℝ
  delta : ℝ
  gamma : ℝ
  theta : ℝ

/-- Translation of `calculate_greeks` from src/src/simulation.py, threading the
global generator stream.  Perturbations `dS = S0 * 0.01`, `dT = 1/365`; every
supporting simulation uses `N = 20000` paths and the default `num_steps = 100`;
the calls are made in source order (base, spot up, spot down, and, only when
`T > dT`, shortened maturity).  Returns the result record together with the
final generator cursor. -/
noncomputable def calculate_greeks (g : ℕ → ℝ) (k : ℕ)
    (S0 v0 rho kappa theta sigma T r strike : ℝ) (option_type : String) :
    GreeksResult × ℕ :=
  let dS := S0 * 0.01
  let dT : ℝ := 1 / 365
  let base := heston_run g k S0 v0 rho kappa theta sigma T r strike
    option_type greeks_num_paths default_num_steps
  let up := heston_run g base.2 (S0 + dS) v0 rho kappa theta sigma T r strike
    option_type greeks_num_paths default_num_steps
  let down := heston_run g up.2 (S0 - dS) v0 rho kappa theta sigma T r strike
    option_type greeks_num_paths default_num_steps
  let P := base.1
  let delta := (up.1 - down.1) / (2 * dS)
  let gamma := (up.1 - 2 * P + down.1) / dS ^ 2
  if dT < T then
    let td := heston_run g down.2 S0 v0 rho kappa theta sigma (T - dT) r strike
      option_type greeks_num_paths default_num_steps
    (⟨P, delta, gamma, (td.1 - P) / dT⟩, td.2)
  else
    (⟨P, delta, gamma, 0⟩, down.2)

/-- The price operation as exposed to callers, in fallible form, with errors
modelled as `Except.error` carrying the Python exception name.  The source
performs no input validation and contains no raise statement; the one exception
its body can raise is the ZeroDivisionError from its first statement
`dt = T / num_steps` when `num_steps = 0` (before any draw is consumed).  Every
other hazard in the body is numpy arithmetic (sqrt of a negative, mean of an
empty array, float overflow), which yields nan/inf with a warning instead of
raising, so for `num_steps ≠ 0` the operation returns the estimate. -/
noncomputable def heston_price_checked (Z1 Zraw : ℕ → ℕ → ℝ)
    (S0 v0 rho kappa theta sigma T r strike : ℝ) (option_type : String)
    (num_paths num_steps : ℕ) : Except String ℝ :=
  if num_steps = 0 then Except.error "ZeroDivisionError"
  else Except.ok (heston_model_sim Z1 Zraw S0 v0 rho kappa theta sigma T r
    strike option_type num_paths num_steps)

/-- The greeks operation as exposed to callers, in fallible form.  The source
performs no input validation; every internal simulation uses the default
`num_steps = 100`, so the ZeroDivisionError of `heston_model_sim` is
unreachable, and the `S0 = 0` case divides a numpy float by the Python float
`2 * dS = 0.0`, which yields nan/inf with a warning instead of raising; the
operation therefore always returns. -/
noncomputable def calculate_greeks_checked (g : ℕ → ℝ) (k : ℕ)
    (S0 v0 rho kappa theta sigma T r strike : ℝ) (option_type : String) :
    Except String (GreeksResult × ℕ) :=
  Except.ok (calculate_greeks g k S0 v0 rho kappa theta sigma T r strike
    option_type)

/-- Global draw stream used to exhibit two successive identical-parameter calls
of the unseeded engine: draw 0 feeds the first call, draw 2 the second. -/
noncomputable def gTwoCalls : ℕ → ℝ := fun n =>
  if n = 0 then 1 / 2 else if n = 2 then 3 / 2 else 0

/-- Draw stream that agrees with `gTwoCalls` on the two draws a one-path,
one-step simulation consumes, and differs afterwards. -/
noncomputable def gAgreeHead : ℕ → ℝ := fun n =>
  if n = 0 then 1 / 2 else if n = 1 then 0 else 42

/-- Helper: the path state after `n` steps only reads draws at indices below
`n`. -/
theorem hestonPath_congr (S0 v0 kappa theta sigma r dt : ℝ)
    (z1 z1' z2 z2' : ℕ → ℝ) (n : ℕ)
    (h1 : ∀ t, t < n → z1 t = z1' t) (h2 : ∀ t, t < n → z2 t = z2' t) :
    hestonPath S0 v0 kappa theta sigma r dt z1 z2 n
      = hestonPath S0 v0 kappa theta sigma r dt z1' z2' n := by
  induction n with
  | zero => rfl
  | succ n ih =>
      have hn : hestonPath S0 v0 kappa theta sigma r dt z1 z2 n
          = hestonPath S0 v0 kappa theta sigma r dt z1' z2' n :=
        ih (fun t ht => h1 t (Nat.lt_succ_of_lt ht))
           (fun t ht => h2 t (Nat.lt_succ_of_lt ht))
      simp only [hestonPath, hn, h1 n (Nat.lt_succ_self n),
        h2 n (Nat.lt_succ_self n)]

/-- Helper: with `dt = 0` every step is a no-op, so the path stays at
`(S0, v0)`. -/
theorem hestonPath_dt_zero (S0 v0 kappa theta sigma r : ℝ)
    (z1 z2 : ℕ → ℝ) (n : ℕ) :
    hestonPath S0 v0 kappa theta sigma r 0 z1 z2 n = (S0, v0) := by
  induction n with
  | zero => rfl
  | succ n ih =>
      simp [hestonPath, hestonStep, ih, Real.sqrt_zero, Real.exp_zero]

/-- Helper: the price only reads draws at path indices below `num_paths` and
step indices below `num_steps`. -/
theorem heston_model_sim_congr (Z1 Z1' Zraw Zraw' : ℕ → ℕ → ℝ)
    (S0 v0 rho kappa theta sigma T r strike : ℝ) (option_type : String)
    (num_paths num_steps : ℕ)
    (h1 : ∀ p, p < num_paths → ∀ t, t < num_steps → Z1 p t = Z1' p t)
    (h2 : ∀ p, p < num_paths → ∀ t, t < num_steps → Zraw p t = Zraw' p t) :
    heston_model_sim Z1 Zraw S0 v0 rho kappa theta sigma T r strike
        option_type num_paths num_steps
      = heston_model_sim Z1' Zraw' S0 v0 rho kappa theta sigma T r strike
        option_type num_paths num_steps := by
  simp only [heston_model_sim]
  congr 2
  refine Finset.sum_congr rfl (fun p hp => ?_)
  have hp' : p < num_paths := Finset.mem_range.mp hp
  have hST : hestonPath S0 v0 kappa theta sigma r (T / (num_steps : ℝ))
      (Z1 p) (fun t => rho * Z1 p t + Real.sqrt (1 - rho ^ 2) * Zraw p t)
      num_steps
      = hestonPath S0 v0 kappa theta sigma r (T / (num_steps : ℝ))
      (Z1' p) (fun t => rho * Z1' p t + Real.sqrt (1 - rho ^ 2) * Zraw' p t)
      num_steps := by
    refine hestonPath_congr _ _ _ _ _ _ _ _ _ _ _ _
      (fun t ht => h1 p hp' t ht) (fun t ht => ?_)
    simp only [h1 p hp' t ht, h2 p hp' t ht]
  rw [hST]

/-- Helper: the generator cursor advances by exactly the `2 * num_paths *
num_steps` draws one `heston_model_sim` call consumes. -/
theorem heston_run_snd (g : ℕ → ℝ) (k : ℕ)
    (S0 v0 rho kappa theta sigma T r strike : ℝ) (option_type : String)
    (num_paths num_steps : ℕ) :
    (heston_run g k S0 v0 rho kappa theta sigma T r strike option_type
        num_paths num_steps).2 = k + 2 * (num_paths * num_steps) := rfl

/-- Helper: one-step unfolding of the path recursion at index 1. -/
theorem hestonPath_one (S0 v0 kappa theta sigma r dt : ℝ) (z1 z2 : ℕ → ℝ) :
    hestonPath S0 v0 kappa theta sigma r dt z1 z2 1
      = hestonStep kappa theta sigma r dt (S0, v0) (z1 0) (z2 0) := rfl

/-- C4: each step reads the floored variance `max (v t) 0` for its drift and
diffusion coefficients, updates the price by
`S * exp ((r - 0.5*v⁺)*dt + sqrt v⁺ * sqrt dt * z1)`, stores
`v + kappa*(theta - v⁺)*dt + sigma * sqrt v⁺ * sqrt dt * z2` without flooring
it, and the stored variance can indeed be negative. -/
theorem asymmetric_floor_discretization :
    (∀ (S0 v0 kappa theta sigma r dt : ℝ) (z1 z2 : ℕ → ℝ) (t : ℕ),
      hestonPath S0 v0 kappa theta sigma r dt z1 z2 (t + 1)
        = ((hestonPath S0 v0 kappa theta sigma r dt z1 z2 t).1
             * Real.exp ((r - 0.5
                   * max (hestonPath S0 v0 kappa theta sigma r dt z1 z2 t).2 0) * dt
                 + Real.sqrt (max (hestonPath S0 v0 kappa theta sigma r dt z1 z2 t).2 0)
                   * Real.sqrt dt * z1 t),
           (hestonPath S0 v0 kappa theta sigma r dt z1 z2 t).2
             + kappa * (theta
                 - max (hestonPath S0 v0 kappa theta sigma r dt z1 z2 t).2 0) * dt
             + sigma * Real.sqrt (max (hestonPath S0 v0 kappa theta sigma r dt z1 z2 t).2 0)
                 * Real.sqrt dt * z2 t))
    ∧ (hestonPath 1 (1 / 100) 0 0 1 0 1 (fun _ => 0) (fun _ => -1) 1).2 < 0 := by
  constructor
  · intro S0 v0 kappa theta sigma r dt z1 z2 t
    rfl
  · have hmax : max (1 / 100 : ℝ) 0 = 1 / 100 := max_eq_left (by norm_num)
    have hsqrt : Real.sqrt (1 / 100) = 1 / 10 := by
      rw [show (1 / 100 : ℝ) = (1 / 10) ^ 2 by norm_num,
        Real.sqrt_sq (by norm_num)]
    rw [hestonPath_one]
    simp only [hestonStep, hmax, hsqrt, Real.sqrt_one]
    norm_num

/-- C7: the returned price is `exp (-r*T)` times the mean over the paths of the
terminal payoff, `max (S_T - K) 0` for a call and `max (K - S_T) 0` for every
other option type; it is always this Monte-Carlo estimator, never a closed
form. -/
theorem discounted_mean_payoff (Z1 Zraw : ℕ → ℕ → ℝ)
    (S0 v0 rho kappa theta sigma T r strike : ℝ) (option_type : String)
    (num_paths num_steps : ℕ) :
    heston_model_sim Z1 Zraw S0 v0 rho kappa theta sigma T r strike option_type
        num_paths num_steps
      = Real.exp (-r * T)
        * (Finset.sum (Finset.range num_paths) (fun p =>
             if option_type = "call"
             then max ((hestonPath S0 v0 kappa theta sigma r (T / (num_steps : ℝ))
                 (Z1 p)
                 (fun t => rho * Z1 p t + Real.sqrt (1 - rho ^ 2) * Zraw p t)
                 num_steps).1 - strike) 0
             else max (strike - (hestonPath S0 v0 kappa theta sigma r
                 (T / (num_steps : ℝ)) (Z1 p)
                 (fun t => rho * Z1 p t + Real.sqrt (1 - rho ^ 2) * Zraw p t)
                 num_steps).1) 0)
           / (num_paths : ℝ)) := rfl

/-- C9: the price estimate is non-negative for every input: each path payoff is
a `max` with 0, so the discounted mean is non-negative. -/
theorem price_estimate_nonneg (Z1 Zraw : ℕ → ℕ → ℝ)
    (S0 v0 rho kappa theta sigma T r strike : ℝ) (option_type : String)
    (num_paths num_steps : ℕ) :
    0 ≤ heston_model_sim Z1 Zraw S0 v0 rho kappa theta sigma T r strike
        option_type num_paths num_steps := by
  simp only [heston_model_sim]
  refine mul_nonneg (Real.exp_pos _).le (div_nonneg ?_ (Nat.cast_nonneg _))
  refine Finset.sum_nonneg (fun p _ => ?_)
  by_cases h : option_type = "call" <;> simp [h]

/-- C10: every option_type other than the string "call" is priced with the put
payoff; no option_type value is rejected. -/
theorem non_call_is_put (Z1 Zraw : ℕ → ℕ → ℝ)
    (S0 v0 rho kappa theta sigma T r strike : ℝ) (num_paths num_steps : ℕ)
    (option_type : String) (h : option_type ≠ "call") :
    heston_model_sim Z1 Zraw S0 v0 rho kappa theta sigma T r strike option_type
        num_paths num_steps
      = heston_model_sim Z1 Zraw S0 v0 rho kappa theta sigma T r strike "put"
        num_paths num_steps := by
  simp only [heston_model_sim, if_neg h,
    if_neg (show ¬("put" = "call") by decide)]

/-- Witness for C10 at the concrete option type "banana". -/
theorem non_call_is_put_witness :
    ("banana" ≠ "call")
  ∧ heston_model_sim (fun _ _ => 0) (fun _ _ => 0) 1 0 0 0 0 0 1 0 1 "banana" 1 1
      = heston_model_sim (fun _ _ => 0) (fun _ _ => 0) 1 0 0 0 0 0 1 0 1 "put"
          1 1 :=
  ⟨by decide,
   non_call_is_put (fun _ _ => 0) (fun _ _ => 0) 1 0 0 0 0 0 1 0 1 1 1 "banana"
     (by decide)⟩

/-- C3: with `T = 0` every step degenerates to a no-op (`dt = 0`), so for any
draws the price is exactly the undiscounted intrinsic payoff at spot:
`max (S0 - K) 0` for a call and `max (K - S0) 0` otherwise. -/
theorem zero_maturity_boundary (Z1 Zraw : ℕ → ℕ → ℝ)
    (S0 v0 rho kappa theta sigma T r strike : ℝ) (option_type : String)
    (num_paths num_steps : ℕ)
    (hT : T = 0) (hsteps : 1 ≤ num_steps) (hv0 : 0 ≤ v0)
    (hpaths : 1 ≤ num_paths) :
    heston_model_sim Z1 Zraw S0 v0 rho kappa theta sigma T r strike option_type
        num_paths num_steps
      = if option_type = "call" then max (S0 - strike) 0
        else max (strike - S0) 0 := by
  subst hT
  have hnp : (num_paths : ℝ) ≠ 0 := Nat.cast_ne_zero.mpr (by omega)
  simp only [heston_model_sim, zero_div, hestonPath_dt_zero, mul_zero,
    neg_mul, neg_zero, Real.exp_zero, one_mul]
  rw [Finset.sum_const, Finset.card_range, nsmul_eq_mul,
    mul_div_cancel_left₀ _ hnp]

/-- Witness for C3 at `S0 = 3`, `strike = 2`, call, one path, one step. -/
theorem zero_maturity_boundary_witness :
    ((0 : ℝ) = 0) ∧ (1 ≤ 1) ∧ ((0 : ℝ) ≤ 0) ∧
    heston_model_sim (fun _ _ => 0) (fun _ _ => 0) 3 0 0 0 0 0 0 0 2 "call" 1 1
      = if "call" = "call" then max ((3 : ℝ) - 2) 0 else max (2 - 3) 0 :=
  ⟨rfl, le_refl 1, le_refl 0,
   zero_maturity_boundary (fun _ _ => 0) (fun _ _ => 0) 3 0 0 0 0 0 0 0 2 "call"
     1 1 rfl (le_refl 1) (le_refl 0) (le_refl 1)⟩

/-- C5: the theta field is 0 exactly when `T ≤ 1/365`, and otherwise is the
forward difference `(Price(T - 1/365) - Price(T)) / (1/365)` where the
shortened-maturity price is an independent resimulation (it consumes the fourth
block of generator draws, after the base, spot-up and spot-down calls). -/
theorem theta_truncation_finite_difference (g : ℕ → ℝ) (k : ℕ)
    (S0 v0 rho kappa theta sigma T r strike : ℝ) (option_type : String) :
    (calculate_greeks g k S0 v0 rho kappa theta sigma T r strike
        option_type).1.theta
      = if 1 / 365 < T then
          ((heston_run g (k + 3 * (2 * (greeks_num_paths * default_num_steps)))
              S0 v0 rho kappa theta sigma (T - 1 / 365) r strike option_type
              greeks_num_paths default_num_steps).1
            - (heston_run g k S0 v0 rho kappa theta sigma T r strike
                option_type greeks_num_paths default_num_steps).1) / (1 / 365)
        else 0 := by
  have hc : k + 2 * (greeks_num_paths * default_num_steps)
        + 2 * (greeks_num_paths * default_num_steps)
        + 2 * (greeks_num_paths * default_num_steps)
      = k + 3 * (2 * (greeks_num_paths * default_num_steps)) := by ring
  by_cases h : (1 : ℝ) / 365 < T
  · simp only [calculate_greeks, heston_run_snd, if_pos h, hc]
  · simp only [calculate_greeks, heston_run_snd, if_neg h]

/-- C6: the spot perturbation is `dS = S0 * 0.01`, Delta is the central
difference `(P_up - P_down) / (2*dS)` and Gamma the central second difference
`(P_up - 2*P + P_down) / dS^2`, where the base, up and down prices are three
separate simulation calls (they consume the first, second and third blocks of
generator draws). -/
theorem delta_gamma_central_difference (g : ℕ → ℝ) (k : ℕ)
    (S0 v0 rho kappa theta sigma T r strike : ℝ) (option_type : String)
    (hS0 : S0 ≠ 0) :
    (calculate_greeks g k S0 v0 rho kappa theta sigma T r strike
        option_type).1.delta
      = ((heston_run g (k + 2 * (greeks_num_paths * default_num_steps))
            (S0 + S0 * 0.01) v0 rho kappa theta sigma T r strike option_type
            greeks_num_paths default_num_steps).1
          - (heston_run g (k + 2 * (2 * (greeks_num_paths * default_num_steps)))
              (S0 - S0 * 0.01) v0 rho kappa theta sigma T r strike option_type
              greeks_num_paths default_num_steps).1)
        / (2 * (S0 * 0.01))
  ∧ (calculate_greeks g k S0 v0 rho kappa theta sigma T r strike
        option_type).1.gamma
      = ((heston_run g (k + 2 * (greeks_num_paths * default_num_steps))
            (S0 + S0 * 0.01) v0 rho kappa theta sigma T r strike option_type
            greeks_num_paths default_num_steps).1
          - 2 * (heston_run g k S0 v0 rho kappa theta sigma T r strike
              option_type greeks_num_paths default_num_steps).1
          + (heston_run g (k + 2 * (2 * (greeks_num_paths * default_num_steps)))
              (S0 - S0 * 0.01) v0 rho kappa theta sigma T r strike option_type
              greeks_num_paths default_num_steps).1)
        / (S0 * 0.01) ^ 2 := by
  have hc : k + 2 * (greeks_num_paths * default_num_steps)
        + 2 * (greeks_num_paths * default_num_steps)
      = k + 2 * (2 * (greeks_num_paths * default_num_steps)) := by ring
  by_cases h : (1 : ℝ) / 365 < T
  · constructor <;> simp only [calculate_greeks, heston_run_snd, if_pos h, hc]
  · constructor <;> simp only [calculate_greeks, heston_run_snd, if_neg h, hc]

/-- Witness for C6 at `S0 = 100` with the all-zero draw stream. -/
theorem delta_gamma_central_difference_witness :
    ((100 : ℝ) ≠ 0)
  ∧ ((calculate_greeks (fun _ => 0) 0 100 (4 / 100) (-1 / 2) 2 (4 / 100)
        (3 / 10) 1 (5 / 100) 100 "call").1.delta
      = ((heston_run (fun _ => 0) (0 + 2 * (greeks_num_paths * default_num_steps))
            (100 + 100 * 0.01) (4 / 100) (-1 / 2) 2 (4 / 100) (3 / 10) 1
            (5 / 100) 100 "call" greeks_num_paths default_num_steps).1
          - (heston_run (fun _ => 0)
              (0 + 2 * (2 * (greeks_num_paths * default_num_steps)))
              (100 - 100 * 0.01) (4 / 100) (-1 / 2) 2 (4 / 100) (3 / 10) 1
              (5 / 100) 100 "call" greeks_num_paths default_num_steps).1)
        / (2 * (100 * 0.01))
  ∧ (calculate_greeks (fun _ => 0) 0 100 (4 / 100) (-1 / 2) 2 (4 / 100)
        (3 / 10) 1 (5 / 100) 100 "call").1.gamma
      = ((heston_run (fun _ => 0) (0 + 2 * (greeks_num_paths * default_num_steps))
            (100 + 100 * 0.01) (4 / 100) (-1 / 2) 2 (4 / 100) (3 / 10) 1
            (5 / 100) 100 "call" greeks_num_paths default_num_steps).1
          - 2 * (heston_run (fun _ => 0) 0 100 (4 / 100) (-1 / 2) 2 (4 / 100)
              (3 / 10) 1 (5 / 100) 100 "call" greeks_num_paths
              default_num_steps).1
          + (heston_run (fun _ => 0)
              (0 + 2 * (2 * (greeks_num_paths * default_num_steps)))
              (100 - 100 * 0.01) (4 / 100) (-1 / 2) 2 (4 / 100) (3 / 10) 1
              (5 / 100) 100 "call" greeks_num_paths default_num_steps).1)
        / (100 * 0.01) ^ 2) :=
  ⟨by norm_num,
   delta_gamma_central_difference (fun _ => 0) 0 100 (4 / 100) (-1 / 2) 2
     (4 / 100) (3 / 10) 1 (5 / 100) 100 "call" (by norm_num)⟩

/-- C8 (amended): a greeks request consumes exactly four simulation calls'
worth of generator draws when `T > 1/365` and only three (base, spot up, spot
down — the shortened-maturity leg is skipped) when `T ≤ 1/365`; every
supporting simulation uses `greeks_num_paths = 20000` paths, double the
standalone default of 10000. -/
theorem greeks_simulation_budget (g : ℕ → ℝ) (k : ℕ)
    (S0 v0 rho kappa theta sigma T r strike : ℝ) (option_type : String) :
    (calculate_greeks g k S0 v0 rho kappa theta sigma T r strike option_type).2
        = k + (if 1 / 365 < T then 4 else 3)
            * (2 * (greeks_num_paths * default_num_steps))
  ∧ greeks_num_paths = 2 * default_num_paths := by
  constructor
  · by_cases h : (1 : ℝ) / 365 < T
    · simp only [calculate_greeks, heston_run_snd, if_pos h]
      ring
    · simp only [calculate_greeks, heston_run_snd, if_neg h]
      ring
  · norm_num [greeks_num_paths, default_num_paths]

/-- Counterexample to C8 as stated: at maturity `T = 1/365` (one calendar day)
the greeks operation performs only three simulations — the generator cursor
advances by three call budgets, not four — and Theta is returned as 0 without
any shortened-maturity resimulation. -/
theorem greeks_three_calls_at_one_day :
    ((calculate_greeks (fun _ => 0) 0 100 (4 / 100) (-1 / 2) 2 (4 / 100)
        (3 / 10) (1 / 365) (5 / 100) 100 "call").2
      = 3 * (2 * (greeks_num_paths * default_num_steps)))
  ∧ ((calculate_greeks (fun _ => 0) 0 100 (4 / 100) (-1 / 2) 2 (4 / 100)
        (3 / 10) (1 / 365) (5 / 100) 100 "call").1.theta = 0)
  ∧ 3 * (2 * (greeks_num_paths * default_num_steps))
      ≠ 4 * (2 * (greeks_num_paths * default_num_steps)) := by
  have h : ¬((1 : ℝ) / 365 < 1 / 365) := lt_irrefl _
  refine ⟨?_, ?_, ?_⟩
  · simp only [calculate_greeks, heston_run_snd, if_neg h]
    ring
  · simp only [calculate_greeks, heston_run_snd, if_neg h]
  · norm_num [greeks_num_paths, default_num_steps]


/-- C2 (amended): the engine accepts no seed, but the price is a deterministic
function of the parameters and of exactly the `2 * num_paths * num_steps`
generator draws the call consumes: two runs whose generator streams agree on
that consumed block (as happens when the global generator is reseeded
identically before each call) return identical estimates and identical final
generator states. -/
theorem reseeded_runs_identical (g g' : ℕ → ℝ) (k : ℕ)
    (S0 v0 rho kappa theta sigma T r strike : ℝ) (option_type : String)
    (num_paths num_steps : ℕ)
    (h : ∀ n, n < 2 * (num_paths * num_steps) → g (k + n) = g' (k + n)) :
    heston_run g k S0 v0 rho kappa theta sigma T r strike option_type
        num_paths num_steps
      = heston_run g' k S0 v0 rho kappa theta sigma T r strike option_type
        num_paths num_steps := by
  have hb : ∀ p t, p < num_paths → t < num_steps →
      p * num_steps + t < num_paths * num_steps := by
    intro p t hp ht
    have h1 : p * num_steps + t < (p + 1) * num_steps := by
      calc p * num_steps + t < p * num_steps + num_steps :=
            Nat.add_lt_add_left ht _
        _ = (p + 1) * num_steps := by ring
    exact lt_of_lt_of_le h1 (Nat.mul_le_mul_right _ hp)
  simp only [heston_run, Prod.mk.injEq]
  refine ⟨?_, trivial⟩
  refine heston_model_sim_congr _ _ _ _ _ _ _ _ _ _ _ _ _ _ _ _
    (fun p hp t ht => ?_) (fun p hp t ht => ?_)
  · exact h (p * num_steps + t)
      (lt_of_lt_of_le (hb p t hp ht) (Nat.le_mul_of_pos_left _ (by omega)))
  · have hlt : num_paths * num_steps + (p * num_steps + t)
        < 2 * (num_paths * num_steps) := by
      have := hb p t hp ht
      omega
    have := h (num_paths * num_steps + (p * num_steps + t)) hlt
    simpa [Nat.add_assoc] using this

/-- Witness for C2 (amended): `gTwoCalls` and `gAgreeHead` differ from index 2
on but agree on the two draws consumed by a one-path, one-step call, so the two
runs coincide. -/
theorem reseeded_runs_identical_witness :
    (∀ n, n < 2 * (1 * 1) → gTwoCalls (0 + n) = gAgreeHead (0 + n))
  ∧ heston_run gTwoCalls 0 1 1 0 0 0 0 1 0 0 "call" 1 1
      = heston_run gAgreeHead 0 1 1 0 0 0 0 1 0 0 "call" 1 1 := by
  have hagree : ∀ n, n < 2 * (1 * 1) → gTwoCalls (0 + n) = gAgreeHead (0 + n) := by
    intro n hn
    interval_cases n <;> norm_num [gTwoCalls, gAgreeHead]
  exact ⟨hagree,
    reseeded_runs_identical gTwoCalls gAgreeHead 0 1 1 0 0 0 0 1 0 0 "call" 1 1
      hagree⟩

/-- C1 (amended): no ValidationError exists.  For every input violating the
parameter constraints (`rho` outside `[-1,1]`, negative `v0`/`theta`/`sigma`,
`num_paths < 1`, `strike ≤ 0`, or `S0 = 0`), as long as `num_steps ≥ 1`, the
price and greeks operations do not fail — they simulate on the given values and
return an estimate; the one failing input class is `num_steps = 0`, where the
price operation's first statement `dt = T / num_steps` raises a
ZeroDivisionError, not a pre-simulation ValidationError (and the greeks
operation, whose internal simulations always use 100 steps, never fails). -/
theorem invalid_inputs_still_priced (Z1 Zraw : ℕ → ℕ → ℝ) (g : ℕ → ℝ) (k : ℕ)
    (S0 v0 rho kappa theta sigma T r strike : ℝ) (option_type : String)
    (num_paths num_steps : ℕ)
    (h : rho < -1 ∨ 1 < rho ∨ v0 < 0 ∨ theta < 0 ∨ sigma < 0
        ∨ num_paths < 1 ∨ strike ≤ 0 ∨ S0 = 0)
    (hns : 1 ≤ num_steps) :
    (heston_price_checked Z1 Zraw S0 v0 rho kappa theta sigma T r strike
        option_type num_paths num_steps
      = Except.ok (heston_model_sim Z1 Zraw S0 v0 rho kappa theta sigma T r
          strike option_type num_paths num_steps))
  ∧ (calculate_greeks_checked g k S0 v0 rho kappa theta sigma T r strike
        option_type
      = Except.ok (calculate_greeks g k S0 v0 rho kappa theta sigma T r strike
          option_type))
  ∧ (heston_price_checked Z1 Zraw S0 v0 rho kappa theta sigma T r strike
        option_type num_paths 0
      = Except.error "ZeroDivisionError") :=
  ⟨by rw [heston_price_checked, if_neg (by omega)], rfl, rfl⟩

/-- Witness for C1 (amended) at the invalid input `v0 = -1/100` with one
step. -/
theorem invalid_inputs_still_priced_witness :
    ((-1 / 100 : ℝ) < -1 ∨ 1 < (0 : ℝ) ∨ (-1 / 100 : ℝ) < 0 ∨ (0 : ℝ) < 0
        ∨ (0 : ℝ) < 0 ∨ 1 < 1 ∨ (1 : ℝ) ≤ 0 ∨ (1 : ℝ) = 0)
  ∧ (1 ≤ 1)
  ∧ ((heston_price_checked (fun _ _ => 0) (fun _ _ => 0) 1 (-1 / 100) 0 0 0 0 1
        0 1 "call" 1 1
      = Except.ok (heston_model_sim (fun _ _ => 0) (fun _ _ => 0) 1 (-1 / 100)
          0 0 0 0 1 0 1 "call" 1 1))
    ∧ (calculate_greeks_checked (fun _ => 0) 0 1 (-1 / 100) 0 0 0 0 1 0 1
        "call"
      = Except.ok (calculate_greeks (fun _ => 0) 0 1 (-1 / 100) 0 0 0 0 1 0 1
          "call"))
    ∧ (heston_price_checked (fun _ _ => 0) (fun _ _ => 0) 1 (-1 / 100) 0 0 0 0
        1 0 1 "call" 1 0
      = Except.error "ZeroDivisionError")) :=
  ⟨Or.inr (Or.inr (Or.inl (by norm_num))), le_refl 1,
   invalid_inputs_still_priced (fun _ _ => 0) (fun _ _ => 0) (fun _ => 0) 0 1
     (-1 / 100) 0 0 0 0 1 0 1 "call" 1 1
     (Or.inr (Or.inr (Or.inl (by norm_num)))) (le_refl 1)⟩

/-- Counterexample to C1 as stated: at the invalid input `v0 = -1/100` (with
`S0 = strike = 1`, all other parameters 0, one path, one step, all-zero draws)
the price operation performs the simulation and returns the estimate 0 instead
of raising a ValidationError. -/
theorem invalid_v0_returns_estimate :
    heston_price_checked (fun _ _ => 0) (fun _ _ => 0) 1 (-1 / 100) 0 0 0 0 1 0
        1 "call" 1 1 = Except.ok 0 := by
  have hmax : max (-1 / 100 : ℝ) 0 = 0 := max_eq_right (by norm_num)
  norm_num [heston_price_checked, heston_model_sim, hestonPath_one, hestonStep,
    hmax, Real.sqrt_zero, Real.sqrt_one, Real.exp_zero, Finset.sum_range_one]

/-- Counterexample to C2 as stated: the engine exposes no seed, so with the
global generator stream `gTwoCalls` two successive price calls with identical
parameters (`S0 = v0 = 1`, `T = 1`, `strike = 0`, call, one path, one step) —
the second call starting from the generator state the first call left behind —
return the different estimates 1 and `exp 1`. -/
theorem identical_parameter_calls_differ :
    (heston_run gTwoCalls 0 1 1 0 0 0 0 1 0 0 "call" 1 1).1
      ≠ (heston_run gTwoCalls
          (heston_run gTwoCalls 0 1 1 0 0 0 0 1 0 0 "call" 1 1).2
          1 1 0 0 0 0 1 0 0 "call" 1 1).1 := by
  have hmax : max (1 : ℝ) 0 = 1 := max_eq_left zero_le_one
  have hpay : max (Real.exp 1) 0 = Real.exp 1 := max_eq_left (Real.exp_pos 1).le
  have e1 : (heston_run gTwoCalls 0 1 1 0 0 0 0 1 0 0 "call" 1 1).1 = 1 := by
    norm_num [heston_run, heston_model_sim, hestonPath_one, hestonStep,
      gTwoCalls, hmax, Real.sqrt_one, Finset.sum_range_one, Real.exp_zero]
  have e2 : (heston_run gTwoCalls 2 1 1 0 0 0 0 1 0 0 "call" 1 1).1
      = Real.exp 1 := by
    norm_num [heston_run, heston_model_sim, hestonPath_one, hestonStep,
      gTwoCalls, hmax, hpay, Real.sqrt_one, Finset.sum_range_one,
      Real.exp_zero]
  rw [heston_run_snd]
  norm_num
  rw [e1, e2]
  have hle := Real.add_one_le_exp (1 : ℝ)
  exact ne_of_lt (by linarith)
